import Mathlib

/-!
Verification of the CHIP-8 interpreter in src/lib.rs (crate chip8).

The machine state (struct Chip8), the decoder (impl From<u16> for Inst),
the executor (Chip8::exec) and the cycle driver (Chip8::tick) are embedded
shallowly below.  Machine integers (u8, u16) become Nat with explicit
mod 2^8 / 2^16 where the Rust code wraps; fixed arrays become functions out
of Nat; Rust panics (the decoder's catch-all, slice/array indexing out of
bounds, debug-mode integer underflow) are modeled as Except.error values
carrying an Err describing the panic site.  The wall clock sampled by
Chip8::tick (self.timing.elapsed()) is passed in as an explicit
elapsed-microseconds argument, and the random byte drawn by instruction
CXKK (random::<u8>()) is passed in as an explicit argument, so every
definition is a pure function of its inputs.
-/

namespace ChipVerif

/-- Screen width of chip-8 (const CHIP8_SCREEN_WIDTH). -/
def CHIP8_SCREEN_WIDTH : Nat := 64

/-- Screen height of chip-8 (const CHIP8_SCREEN_HEIGHT). -/
def CHIP8_SCREEN_HEIGHT : Nat := 32

/-- Failure outcomes.  The constructors prefixed with panic model the actual
Rust panics the code in src/lib.rs can hit:
  panicUnsupportedOpcode w models the decoder's
    panic!("Opcode is not supported ...", opcode) whose payload carries the
    offending 16-bit word (and nothing else);
  panicIndexOutOfBounds models an out-of-bounds array/slice index panic;
  panicSubOverflow models a debug-mode integer-underflow panic
    (self.sp -= 1 with sp == 0).
The constructors prefixed with spec are Modelled from the spec: they are the
typed errors the specification's error taxonomy (spec section 7) asks for.
No code of the repository produces them — Chip8::tick returns () and all
failures are panics — they exist only so that statements can compare what the
code produces against what the specification demands. -/
inductive Err where
  | panicUnsupportedOpcode (opcode : Nat)
  | panicIndexOutOfBounds
  | panicSubOverflow
  | specDecodeFailure (opcode pc : Nat)
  | specStackUnderflow
  | specStackOverflow
  deriving DecidableEq

/-- Control-flow effect returned by Chip8::exec (enum Flow in src/lib.rs). -/
inductive Flow where
  | Halt
  | Next
  | Skip
  | Jump (addr : Nat)
  deriving DecidableEq

/-- Decoded instructions (enum Inst in src/lib.rs), one constructor per
operation, carrying the operands the Rust variant carries. -/
inductive Inst where
  | Op00E0
  | Op00EE
  | Op1NNN (nnn : Nat)
  | Op2NNN (nnn : Nat)
  | Op3XKK (x kk : Nat)
  | Op4XKK (x kk : Nat)
  | Op5XY0 (x y : Nat)
  | Op6XKK (x kk : Nat)
  | Op7XKK (x kk : Nat)
  | Op8XY0 (x y : Nat)
  | Op8XY1 (x y : Nat)
  | Op8XY2 (x y : Nat)
  | Op8XY3 (x y : Nat)
  | Op8XY4 (x y : Nat)
  | Op8XY5 (x y : Nat)
  | Op8XY6 (x y : Nat)
  | Op8XY7 (x y : Nat)
  | Op8XYE (x y : Nat)
  | Op9XY0 (x y : Nat)
  | OpANNN (nnn : Nat)
  | OpBNNN (nnn : Nat)
  | OpCXKK (x kk : Nat)
  | OpDXYN (x y n : Nat)
  | OpEX9E (x : Nat)
  | OpEXA1 (x : Nat)
  | OpFX07 (x : Nat)
  | OpFX0A (x : Nat)
  | OpFX15 (x : Nat)
  | OpFX18 (x : Nat)
  | OpFX1E (x : Nat)
  | OpFX29 (x : Nat)
  | OpFX33 (x : Nat)
  | OpFX55 (x : Nat)
  | OpFX65 (x : Nat)
  deriving DecidableEq

/-- The nibble dispatch of the decoder (impl From<u16> for Inst in
src/lib.rs): the 35 non-panicking match arms, in source order, on the four
nibbles of the word; the catch-all arm (which in the source is
panic!("Opcode is not supported ...")) becomes none here and is turned into
the panic error by instOfOpcode below. -/
def decodeRaw (opcode : Nat) : Option Inst :=
  match (opcode &&& 0xF000) >>> 12, (opcode &&& 0x0F00) >>> 8,
        (opcode &&& 0x00F0) >>> 4, opcode &&& 0x000F with
  | 0x0, 0x0, 0xE, 0x0 => some .Op00E0
  | 0x0, 0x0, 0xE, 0xE => some .Op00EE
  | 0x1, _, _, _ => some (.Op1NNN (opcode &&& 0x0FFF))
  | 0x2, _, _, _ => some (.Op2NNN (opcode &&& 0x0FFF))
  | 0x3, x, _, _ => some (.Op3XKK x (opcode &&& 0x00FF))
  | 0x4, x, _, _ => some (.Op4XKK x (opcode &&& 0x00FF))
  | 0x5, x, y, 0x0 => some (.Op5XY0 x y)
  | 0x6, x, _, _ => some (.Op6XKK x (opcode &&& 0x00FF))
  | 0x7, x, _, _ => some (.Op7XKK x (opcode &&& 0x00FF))
  | 0x8, x, y, 0x0 => some (.Op8XY0 x y)
  | 0x8, x, y, 0x1 => some (.Op8XY1 x y)
  | 0x8, x, y, 0x2 => some (.Op8XY2 x y)
  | 0x8, x, y, 0x3 => some (.Op8XY3 x y)
  | 0x8, x, y, 0x4 => some (.Op8XY4 x y)
  | 0x8, x, y, 0x5 => some (.Op8XY5 x y)
  | 0x8, x, y, 0x6 => some (.Op8XY6 x y)
  | 0x8, x, y, 0x7 => some (.Op8XY7 x y)
  | 0x8, x, y, 0xE => some (.Op8XYE x y)
  | 0x9, x, y, 0x0 => some (.Op9XY0 x y)
  | 0xA, _, _, _ => some (.OpANNN (opcode &&& 0x0FFF))
  | 0xB, _, _, _ => some (.OpBNNN (opcode &&& 0x0FFF))
  | 0xC, x, _, _ => some (.OpCXKK x (opcode &&& 0x00FF))
  | 0xD, x, y, n => some (.OpDXYN x y n)
  | 0xE, x, 0x9, 0xE => some (.OpEX9E x)
  | 0xE, x, 0xA, 0x1 => some (.OpEXA1 x)
  | 0xF, x, 0x0, 0x7 => some (.OpFX07 x)
  | 0xF, x, 0x0, 0xA => some (.OpFX0A x)
  | 0xF, x, 0x1, 0x5 => some (.OpFX15 x)
  | 0xF, x, 0x1, 0x8 => some (.OpFX18 x)
  | 0xF, x, 0x1, 0xE => some (.OpFX1E x)
  | 0xF, x, 0x2, 0x9 => some (.OpFX29 x)
  | 0xF, x, 0x3, 0x3 => some (.OpFX33 x)
  | 0xF, x, 0x5, 0x5 => some (.OpFX55 x)
  | 0xF, x, 0x6, 0x5 => some (.OpFX65 x)
  | _, _, _, _ => none

/-- The decoder, impl From<u16> for Inst in src/lib.rs.  Its catch-all arm
is panic!("Opcode is not supported ...", opcode); that panic is modeled as
an Except.error carrying the offending word, the only datum the panic
message carries. -/
def instOfOpcode (opcode : Nat) : Except Err Inst :=
  match decodeRaw opcode with
  | some inst => .ok inst
  | none => .error (.panicUnsupportedOpcode opcode)

/-- The machine state, struct Chip8 in src/lib.rs.  The timing field
(a std::time::Instant) is not part of the embedded state: the only use the
code makes of it is sampling self.timing.elapsed() once per tick, and that
sample is passed to tick as an explicit argument instead. -/
structure Chip8 where
  i : Nat
  pc : Nat
  sp : Nat
  dt : Nat
  st : Nat
  v : Nat → Nat
  mem : Nat → Nat
  stack : Nat → Nat
  gfx : Nat → Bool
  key : Nat → Bool
  gfxUpdated : Bool

/-- Point update of a Nat-valued array modeled as a function. -/
def upd (f : Nat → Nat) (i x : Nat) : Nat → Nat :=
  fun j => if j = i then x else f j

/-- Point update of a Bool-valued array modeled as a function. -/
def updB (f : Nat → Bool) (i : Nat) (x : Bool) : Nat → Bool :=
  fun j => if j = i then x else f j

/-- The 80 font bytes installed by Chip8::reset. -/
def fontData : List Nat :=
  [0xF0, 0x90, 0x90, 0x90, 0xF0,
   0x20, 0x60, 0x20, 0x20, 0x70,
   0xF0, 0x10, 0xF0, 0x80, 0xF0,
   0xF0, 0x10, 0xF0, 0x10, 0xF0,
   0x90, 0x90, 0xF0, 0x10, 0x10,
   0xF0, 0x80, 0xF0, 0x10, 0xF0,
   0xF0, 0x80, 0xF0, 0x90, 0xF0,
   0xF0, 0x10, 0x20, 0x40, 0x40,
   0xF0, 0x90, 0xF0, 0x90, 0xF0,
   0xF0, 0x90, 0xF0, 0x10, 0xF0,
   0xF0, 0x90, 0xF0, 0x90, 0x90,
   0xE0, 0x90, 0xE0, 0x90, 0xE0,
   0xF0, 0x80, 0x80, 0x80, 0xF0,
   0xE0, 0x90, 0x90, 0x90, 0xE0,
   0xF0, 0x80, 0xF0, 0x80, 0xF0,
   0xF0, 0x80, 0xF0, 0x80, 0x80]

/-- The state produced by Chip8::reset.  reset overwrites every field
(i, pc := 0x200, sp, dt, st, v, mem, stack, gfx, key, gfxUpdated and the
font bytes into mem[0..80]), so its result does not depend on the state it
is called on and is embedded as a constant. -/
def resetState : Chip8 where
  i := 0
  pc := 0x200
  sp := 0
  dt := 0
  st := 0
  v := fun _ => 0
  mem := fun a => if a < 80 then fontData.getD a 0 else 0
  stack := fun _ => 0
  gfx := fun _ => false
  key := fun _ => false
  gfxUpdated := false

/-- Chip8::load: copy the program bytes into memory starting at 0x200
(self.mem[0x200..0x200 + prog_len].copy_from_slice(..)).  The program is
given as the list of its first prog_len bytes. -/
def Chip8.load (c : Chip8) (prog : List Nat) : Chip8 :=
  { c with mem := fun a =>
      if 0x200 ≤ a ∧ a < 0x200 + prog.length then prog.getD (a - 0x200) 0
      else c.mem a }

/-- The 16-bit big-endian instruction word at the program counter:
(self.mem[pc] as u16) << 8 | self.mem[pc + 1] as u16. -/
def fetchWord (c : Chip8) : Nat :=
  (c.mem c.pc) <<< 8 ||| c.mem (c.pc + 1)

/-- Chip8::fetch: read the word at pc and advance pc by 2.  The two memory
reads index the 4096-byte array, so pc + 1 > 4095 is an out-of-bounds
panic. -/
def fetch (c : Chip8) : Except Err (Nat × Chip8) :=
  if c.pc + 1 ≤ 4095 then .ok (fetchWord c, { c with pc := c.pc + 2 })
  else .error .panicIndexOutOfBounds

/-- The key scan of instruction FX0A: the Rust loop walks
self.key.iter().enumerate() in index order 0..16 and stops at the first
pressed key, i.e. the lowest-indexed held key. -/
def firstPressedKey (key : Nat → Bool) : Option Nat :=
  (List.range 16).find? fun k => key k

/-- One pixel column of the draw instruction DXYN (the inner for-loop body
over x_offset).  Faithful to the Rust statement order: v[x] is re-read for
every pixel, after any earlier collision write to v[0xF]. -/
def drawInner (x sprite yScreen : Nat) (t : Chip8) (xoff : Nat) : Chip8 :=
  let xScreen := (t.v x + xoff) % CHIP8_SCREEN_WIDTH
  if sprite &&& (0x80 >>> xoff) ≠ 0 then
    let pos := xScreen + yScreen * CHIP8_SCREEN_WIDTH
    let t1 := if t.gfx pos then { t with v := upd t.v 0xF 1 } else t
    { t1 with gfx := updB t1.gfx pos (!(t1.gfx pos)) }
  else t

/-- One sprite row of the draw instruction DXYN (the outer for-loop body):
y_screen is computed from v[y] at the start of the row, then the 8 pixel
columns are processed in order. -/
def drawRow (x y : Nat) (s : Chip8) (yoff : Nat) : Chip8 :=
  let sprite := s.mem (s.i + yoff)
  let yScreen := (s.v y + yoff) % CHIP8_SCREEN_HEIGHT
  (List.range 8).foldl (drawInner x sprite yScreen) s

/-- The draw instruction DXYN.  The Rust code slices
self.mem[self.i..(self.i + n)], which panics when i + n exceeds 4096; it
first sets gfx_updated and clears v[0xF], then XORs the sprite rows onto the
display. -/
def execDraw (c : Chip8) (x y n : Nat) : Except Err (Chip8 × Flow) :=
  if c.i + n ≤ 4096 then
    let c0 := { c with gfxUpdated := true, v := upd c.v 0xF 0 }
    .ok ((List.range n).foldl (drawRow x y) c0, .Next)
  else .error .panicIndexOutOfBounds

/-- Chip8::exec: apply one decoded instruction to the state and return the
control-flow effect.  rnd is the random byte sampled by instruction CXKK
(random::<u8>() in the Rust code).  Array indexing that the Rust code can
make go out of bounds (key[v[x]] in EX9E/EXA1, the stack in 00EE/2NNN, the
memory slices in DXYN/FX33/FX55/FX65) is modeled by an explicit bounds test
returning the corresponding panic as an error. -/
def exec (rnd : Nat) (c : Chip8) (inst : Inst) : Except Err (Chip8 × Flow) :=
  match inst with
  | .Op00E0 => .ok ({ c with gfxUpdated := true, gfx := fun _ => false }, .Next)
  | .Op00EE =>
      if c.sp = 0 then .error .panicSubOverflow
      else .ok ({ c with sp := c.sp - 1 }, .Jump (c.stack (c.sp - 1)))
  | .Op1NNN nnn => .ok (c, .Jump nnn)
  | .Op2NNN nnn =>
      if c.sp < 16 then
        .ok ({ c with stack := upd c.stack c.sp c.pc, sp := c.sp + 1 }, .Jump nnn)
      else .error .panicIndexOutOfBounds
  | .Op3XKK x kk => .ok (c, if c.v x = kk then .Skip else .Next)
  | .Op4XKK x kk => .ok (c, if c.v x ≠ kk then .Skip else .Next)
  | .Op5XY0 x y => .ok (c, if c.v x = c.v y then .Skip else .Next)
  | .Op6XKK x kk => .ok ({ c with v := upd c.v x kk }, .Next)
  | .Op7XKK x kk => .ok ({ c with v := upd c.v x ((c.v x + kk) % 256) }, .Next)
  | .Op8XY0 x y => .ok ({ c with v := upd c.v x (c.v y) }, .Next)
  | .Op8XY1 x y => .ok ({ c with v := upd c.v x (c.v x ||| c.v y) }, .Next)
  | .Op8XY2 x y => .ok ({ c with v := upd c.v x (c.v x &&& c.v y) }, .Next)
  | .Op8XY3 x y => .ok ({ c with v := upd c.v x (c.v x ^^^ c.v y) }, .Next)
  | .Op8XY4 x y =>
      let res := (c.v x + c.v y) % 256
      let flag := if 256 ≤ c.v x + c.v y then 1 else 0
      .ok ({ c with v := upd (upd c.v 0xF flag) x res }, .Next)
  | .Op8XY5 x y =>
      let res := (c.v x + 256 - c.v y) % 256
      let flag := if c.v x < c.v y then 0 else 1
      .ok ({ c with v := upd (upd c.v 0xF flag) x res }, .Next)
  | .Op8XY6 x _y =>
      let v1 := upd c.v 0xF (c.v x &&& 0x01)
      .ok ({ c with v := upd v1 x (v1 x >>> 1) }, .Next)
  | .Op8XY7 x y =>
      let res := (c.v y + 256 - c.v x) % 256
      let flag := if c.v y < c.v x then 0 else 1
      .ok ({ c with v := upd (upd c.v 0xF flag) x res }, .Next)
  | .Op8XYE x _y =>
      let v1 := upd c.v 0xF ((c.v x &&& 0x80) >>> 7)
      .ok ({ c with v := upd v1 x ((v1 x <<< 1) % 256) }, .Next)
  | .Op9XY0 x y => .ok (c, if c.v x ≠ c.v y then .Skip else .Next)
  | .OpANNN nnn => .ok ({ c with i := nnn }, .Next)
  | .OpBNNN nnn => .ok (c, .Jump (c.v 0 + nnn))
  | .OpCXKK x kk => .ok ({ c with v := upd c.v x ((rnd % 256) &&& kk) }, .Next)
  | .OpDXYN x y n => execDraw c x y n
  | .OpEX9E x =>
      if c.v x < 16 then .ok (c, if c.key (c.v x) then .Skip else .Next)
      else .error .panicIndexOutOfBounds
  | .OpEXA1 x =>
      if c.v x < 16 then .ok (c, if !(c.key (c.v x)) then .Skip else .Next)
      else .error .panicIndexOutOfBounds
  | .OpFX07 x => .ok ({ c with v := upd c.v x c.dt }, .Next)
  | .OpFX0A x =>
      match firstPressedKey c.key with
      | some k => .ok ({ c with v := upd c.v x k }, .Next)
      | none => .ok (c, .Halt)
  | .OpFX15 x => .ok ({ c with dt := c.v x }, .Next)
  | .OpFX18 x => .ok ({ c with st := c.v x }, .Next)
  | .OpFX1E x => .ok ({ c with i := (c.i + c.v x) % 65536 }, .Next)
  | .OpFX29 x => .ok ({ c with i := c.v x * 5 }, .Next)
  | .OpFX33 x =>
      if c.i + 2 ≤ 4095 then
        let memBcd :=
          upd (upd (upd c.mem c.i (c.v x / 100)) (c.i + 1) (c.v x / 10 % 10))
            (c.i + 2) (c.v x % 100 % 10)
        .ok ({ c with mem := memBcd }, .Next)
      else .error .panicIndexOutOfBounds
  | .OpFX55 x =>
      if c.i + x ≤ 4095 then
        .ok ({ c with
          mem := fun a => if c.i ≤ a ∧ a ≤ c.i + x then c.v (a - c.i) else c.mem a,
          i := c.i + x + 1 }, .Next)
      else .error .panicIndexOutOfBounds
  | .OpFX65 x =>
      if c.i + x ≤ 4095 then
        .ok ({ c with
          v := fun r => if r ≤ x then c.mem (c.i + r) else c.v r,
          i := c.i + x + 1 }, .Next)
      else .error .panicIndexOutOfBounds

/-- The timer section at the end of Chip8::tick.  The Rust code compares
self.timing.elapsed() against Duration::from_millis(20); elapsedUs is that
sample in microseconds, so the guard is 20000 <= elapsedUs.  Returns the new
delay timer, the new sound timer, and whether the audible event was emitted
(the println!("BEEP"), which fires when st > 0 and st == 1). -/
def updateTimers (elapsedUs dt st : Nat) : Nat × Nat × Bool :=
  if 20000 ≤ elapsedUs then
    (if 0 < dt then dt - 1 else dt,
     if 0 < st then st - 1 else st,
     decide (0 < st ∧ st = 1))
  else (dt, st, false)

/-- Chip8::tick: fetch, decode, execute, apply the control-flow effect to
the program counter (Halt: pc - 2, Next: pc, Skip: pc + 2, Jump: the
target), then run the timer section.  Returns the new state and whether the
audible event was emitted this cycle.  A panic anywhere inside (modeled as
an Err) aborts the cycle. -/
def tick (elapsedUs rnd : Nat) (c : Chip8) : Except Err (Chip8 × Bool) :=
  match fetch c with
  | .error e => .error e
  | .ok (opcode, c1) =>
    match instOfOpcode opcode with
    | .error e => .error e
    | .ok inst =>
      match exec rnd c1 inst with
      | .error e => .error e
      | .ok (c2, flow) =>
        let pcNew := match flow with
          | .Halt => c2.pc - 2
          | .Next => c2.pc
          | .Skip => c2.pc + 2
          | .Jump addr => addr
        let c3 := { c2 with pc := pcNew }
        let t := updateTimers elapsedUs c3.dt c3.st
        .ok ({ c3 with dt := t.1, st := t.2.1 }, t.2.2)

/-- Run n consecutive cycles with the same elapsed-time sample and random
byte, stopping at the first panic. -/
def ticks (elapsedUs rnd : Nat) : Nat → Chip8 → Except Err Chip8
  | 0, c => .ok c
  | n + 1, c =>
    match tick elapsedUs rnd c with
    | .error e => .error e
    | .ok (c1, _) => ticks elapsedUs rnd n c1

/-- Observe register ridx after an executor step, when the step succeeded. -/
def finalV (r : Except Err (Chip8 × Flow)) (ridx : Nat) : Option Nat :=
  match r with
  | .ok (c, _) => some (c.v ridx)
  | .error _ => none

/-- The state after one cycle, when the cycle succeeded. -/
def afterTick (elapsedUs rnd : Nat) (c : Chip8) : Option Chip8 :=
  match tick elapsedUs rnd c with
  | .ok (c1, _) => some c1
  | .error _ => none

/-- Run the executor on two instructions in sequence (two consecutive
cycles' execute steps), keeping the state and dropping the flow effects. -/
def execSeq (c : Chip8) (i1 i2 : Inst) : Except Err Chip8 :=
  match exec 0 c i1 with
  | .error e => .error e
  | .ok (c1, _) =>
    match exec 0 c1 i2 with
    | .error e => .error e
    | .ok (c2, _) => .ok c2

/-- Observe register ridx after execSeq, when both steps succeeded. -/
def seqV (c : Chip8) (i1 i2 : Inst) (ridx : Nat) : Option Nat :=
  match execSeq c i1 i2 with
  | .ok c2 => some (c2.v ridx)
  | .error _ => none

/-- Observe the interesting registers after n cycles: (v0, v15, pc). -/
def ticksView (n : Nat) (c : Chip8) : Option (Nat × Nat × Nat) :=
  match ticks 0 0 n c with
  | .ok c1 => some (c1.v 0, c1.v 0xF, c1.pc)
  | .error _ => none

/-- A state one cycle away from decoding the unmatched word 0xE000. -/
def c1state : Chip8 := resetState.load [0xE0, 0x00]

/-- A state whose register 0 holds 16, one more than the largest key index. -/
def c2state : Chip8 := { resetState with v := upd resetState.v 0 16 }

/-- A state with v[0xF] = 5 and v[0] = 3. -/
def c3state : Chip8 := { resetState with v := upd (upd resetState.v 0xF 5) 0 3 }

/-- The one-instruction key-wait program of the spec scenario: bytes
[0xF0, 0x0A] loaded at 0x200 over a freshly reset machine. -/
def c5state : Chip8 := resetState.load [0xF0, 0x0A]

/-- A state whose call stack is full (sp = 16). -/
def c6full : Chip8 := { resetState with sp := 16 }

/-- A state one cycle away from executing return (00EE) with an empty
stack. -/
def c6tickState : Chip8 := resetState.load [0x00, 0xEE]

/-- A state with v[0] = 5 (and every other register 0). -/
def c8state : Chip8 := { resetState with v := upd resetState.v 0 5 }

/-- The three-instruction program of the spec scenario: load V0=10,
load V1=5, add V0+=V1, loaded at 0x200 over a freshly reset machine. -/
def c9state : Chip8 := resetState.load [0x60, 0x0A, 0x61, 0x05, 0x80, 0x14]

/-- The decoder fails only through its catch-all arm, and the error it
produces carries exactly the offending word. -/
theorem decodeError_eq (w : Nat) (e : Err) (h : instOfOpcode w = .error e) :
    e = .panicUnsupportedOpcode w := by
  unfold instOfOpcode at h
  cases hr : decodeRaw w <;> rw [hr] at h <;> simp_all

/-- find? over a contiguous range returns the least index satisfying the
predicate: it holds there and fails strictly below (within the range's
lower bound). -/
theorem find?_range'_spec (p : Nat → Bool) :
    ∀ n s k, (List.range' s n).find? p = some k →
      p k = true ∧ ∀ j, s ≤ j → j < k → p j = false := by
  intro n
  induction n with
  | zero => intro s k h; simp [List.range'] at h
  | succ m ih =>
    intro s k h
    rw [List.range'_succ] at h
    by_cases hp : p s
    · rw [List.find?_cons_of_pos _ hp] at h
      obtain rfl : s = k := by injection h
      exact ⟨hp, fun j h1 h2 => absurd (Nat.lt_of_le_of_lt h1 h2) (Nat.lt_irrefl _)⟩
    · rw [List.find?_cons_of_neg _ hp] at h
      obtain ⟨hk, hmin⟩ := ih (s + 1) k h
      refine ⟨hk, fun j h1 h2 => ?_⟩
      rcases Nat.lt_or_ge j (s + 1) with h4 | h4
      · have hj : j = s := by omega
        subst hj
        revert hp; cases p j <;> simp
      · exact hmin j h4 h2

/-- The lowest-indexed held key, as scanned by FX0A, is held, and no key
below it is held. -/
theorem firstPressedKey_spec (key : Nat → Bool) (k : Nat)
    (h : firstPressedKey key = some k) :
    key k = true ∧ ∀ j, j < k → key j = false := by
  unfold firstPressedKey at h
  rw [List.range_eq_range'] at h
  obtain ⟨hk, hmin⟩ := find?_range'_spec (fun k => key k) 16 0 k h
  exact ⟨hk, fun j hj => hmin j (Nat.zero_le j) hj⟩

/-- C1, counterexample.  The claim says decoding an unmatched word produces
an explicit error carrying both the offending word and the program counter
and propagating to the caller as a typed error.  At the concrete unmatched
word 0xE000 fetched from pc = 0x200, the cycle instead ends in the decoder's
panic, whose payload is the word alone; it is not the spec's
word-and-pc-carrying DecodeFailure value (spec section 7), and Chip8::tick —
which returns () in the source — has no error channel through which a typed
error could reach its caller. -/
theorem C1_counterexample :
    tick 0 0 c1state = .error (.panicUnsupportedOpcode 0xE000) ∧
    Err.panicUnsupportedOpcode 0xE000 ≠ Err.specDecodeFailure 0xE000 0x200 :=
  ⟨rfl, by decide⟩

/-- C1 (amended): for every state whose fetch is in bounds and whose fetched
word matches none of the implemented operations, the cycle aborts with the
decoder's panic, whose payload carries exactly the offending word (but not
the program counter); no successor state is produced, so the word is never
silently ignored. -/
theorem C1_theorem (c : Chip8) (eU rnd : Nat) (e : Err)
    (hpc : c.pc + 1 ≤ 4095) (hd : instOfOpcode (fetchWord c) = .error e) :
    e = .panicUnsupportedOpcode (fetchWord c) ∧ tick eU rnd c = .error e := by
  refine ⟨decodeError_eq _ _ hd, ?_⟩
  unfold tick fetch
  rw [if_pos hpc]
  simp only [hd]

/-- C1, witness: the amended theorem applied at the concrete state fetching
0xE000 at pc 0x200. -/
theorem C1_witness :
    c1state.pc + 1 ≤ 4095 ∧
    (Err.panicUnsupportedOpcode 0xE000 = Err.panicUnsupportedOpcode (fetchWord c1state) ∧
      tick 0 0 c1state = .error (.panicUnsupportedOpcode 0xE000)) :=
  ⟨by decide, C1_theorem c1state 0 0 (.panicUnsupportedOpcode 0xE000) (by decide) rfl⟩

/-- C4: the code contradicts the claim (and its own comment, which says the
timers count at 60Hz).  With dt = st = 5 and 16700 microseconds elapsed —
a full 1/60-second interval (16667 microseconds) — the timer section leaves
both timers untouched, because the code's guard is
elapsed >= Duration::from_millis(20), i.e. 50Hz; only at 20000 microseconds
do the timers drop to 4.  The audible event does fire exactly on the 1 -> 0
transition of the sound timer when the 20ms guard passes. -/
theorem C4_code_eval :
    updateTimers 16700 5 5 = (5, 5, false) ∧
    16667 ≤ 16700 ∧
    updateTimers 20000 5 5 = (4, 4, false) ∧
    updateTimers 20000 0 1 = (0, 0, true) ∧
    updateTimers 20000 0 2 = (0, 1, false) := by
  decide

/-- C9: loading [0x60, 0x0A, 0x61, 0x05, 0x80, 0x14] at 0x200 over a reset
machine and running exactly 3 cycles leaves v0 = 15, v[0xF] = 0 and
pc = 0x206. -/
theorem C9_theorem : ticksView 3 c9state = some (15, 0, 0x206) := rfl

/-- C2, counterexample.  The claim says EX9E tests keys[register value & 0xF]
so that the lookup is defined for all 256 register values.  At register value
16 the claim predicts the test of key 16 & 0xF = key 0 (not held here), hence
the successful outcome Advance; the code instead indexes the 16-entry key
array at 16 and panics. -/
theorem C2_counterexample :
    exec 0 c2state (.OpEX9E 0) = .error .panicIndexOutOfBounds ∧
    exec 0 c2state (.OpEX9E 0) ≠ .ok (c2state, Flow.Next) :=
  ⟨rfl, fun h => Except.noConfusion h⟩

/-- C2 (amended): EX9E and EXA1 index the key array with the raw register
value, without any & 0xF mask.  For register values 0 through 15 they return
Skip or Advance according to the key flag at that value; for register values
16 through 255 the index is out of bounds and the interpreter panics. -/
theorem C2_theorem (rnd : Nat) (c : Chip8) (x : Nat) :
    (c.v x ≤ 15 →
      exec rnd c (.OpEX9E x) = .ok (c, if c.key (c.v x) then .Skip else .Next) ∧
      exec rnd c (.OpEXA1 x) = .ok (c, if c.key (c.v x) then .Next else .Skip)) ∧
    (16 ≤ c.v x →
      exec rnd c (.OpEX9E x) = .error .panicIndexOutOfBounds ∧
      exec rnd c (.OpEXA1 x) = .error .panicIndexOutOfBounds) := by
  constructor
  · intro h
    have h2 : c.v x < 16 := by omega
    refine ⟨by simp [exec, h2], ?_⟩
    simp only [exec, if_pos h2]
    cases hk : c.key (c.v x) <;> simp
  · intro h
    have h2 : ¬ c.v x < 16 := by omega
    exact ⟨by simp [exec, h2], by simp [exec, h2]⟩

/-- A state with v[0] = 3 and key 3 held, for the C2 witness. -/
def c2wit : Chip8 :=
  { resetState with v := upd resetState.v 0 3, key := updB resetState.key 3 true }

/-- C2, witness: the amended theorem applied at a state with v[0] = 3 and
key 3 held. -/
theorem C2_witness :
    c2wit.v 0 ≤ 15 ∧
    (exec 0 c2wit (.OpEX9E 0) = .ok (c2wit, if c2wit.key (c2wit.v 0) then .Skip else .Next) ∧
      exec 0 c2wit (.OpEXA1 0) = .ok (c2wit, if c2wit.key (c2wit.v 0) then .Next else .Skip)) :=
  ⟨by decide, (C2_theorem 0 c2wit 0).1 (by decide)⟩

/-- C3, counterexample.  The claim quantifies over every pair of register
indices and says the flag register 0xF ends at 1 when the original x value
is at least the original y value.  Take x = 0xF, y = 0 with v[0xF] = 5 and
v[0] = 3: the claim predicts v[0xF] = 1 (5 is at least 3), but the handler
writes the flag first and the destination second, so v[0xF] ends at the
wrapped difference 2. -/
theorem C3_counterexample :
    finalV (exec 0 c3state (.Op8XY5 0xF 0)) 0xF = some 2 ∧
    finalV (exec 0 c3state (.Op8XY5 0xF 0)) 0xF ≠ some 1 :=
  ⟨rfl, by decide⟩

/-- C3 (amended): for every destination index x other than 0xF (and any y),
8XY5 sets v[x] to the 8-bit wrapped difference, sets the flag register 0xF
to 1 exactly when the original v[x] is at least the original v[y] (else 0),
and leaves every other register unchanged.  For x = 0xF the destination
write lands on the flag register itself and wins, leaving the wrapped
difference there (see the C10 theorem). -/
theorem C3_theorem (rnd : Nat) (c : Chip8) (x y : Nat) (hx : x ≠ 0xF) :
    ∃ c1, exec rnd c (.Op8XY5 x y) = .ok (c1, .Next) ∧
      c1.v x = (c.v x + 256 - c.v y) % 256 ∧
      c1.v 0xF = (if c.v y ≤ c.v x then 1 else 0) ∧
      ∀ r, r ≠ x → r ≠ 0xF → c1.v r = c.v r := by
  refine ⟨_, rfl, ?_, ?_, ?_⟩
  · simp [upd]
  · simp only [upd, if_neg (Ne.symm hx), if_pos rfl]
    split_ifs <;> omega
  · intro r hrx hrF
    simp [upd, hrx, hrF]

/-- A state with v[0] = 7 and v[1] = 9, for the C3 witness. -/
def c3wit : Chip8 :=
  { resetState with v := upd (upd resetState.v 0 7) 1 9 }

/-- C3, witness: the amended theorem applied with x = 0, y = 1 at a state
with v[0] = 7, v[1] = 9. -/
theorem C3_witness :
    ∃ c1, exec 0 c3wit (.Op8XY5 0 1) = .ok (c1, .Next) ∧
      c1.v 0 = (c3wit.v 0 + 256 - c3wit.v 1) % 256 ∧
      c1.v 0xF = (if c3wit.v 1 ≤ c3wit.v 0 then 1 else 0) ∧
      ∀ r, r ≠ 0 → r ≠ 0xF → c1.v r = c3wit.v r :=
  C3_theorem 0 c3wit 0 1 (by decide)

/-- C6, counterexample.  The claim says return on an empty stack and call on
a full stack become typed StackUnderflow/StackOverflow errors propagating to
the Cycle Driver's caller.  Concretely, return on the freshly reset machine
ends in the stack-pointer-underflow panic and call on a machine with 16
saved addresses ends in the stack-index-out-of-bounds panic; neither value
is the spec's typed StackUnderflow/StackOverflow (spec section 7c), and
Chip8::tick — which returns () in the source — has no error channel through
which a typed error could reach its caller. -/
theorem C6_counterexample :
    exec 0 resetState .Op00EE = .error .panicSubOverflow ∧
    Err.panicSubOverflow ≠ Err.specStackUnderflow ∧
    exec 0 c6full (.Op2NNN 0x300) = .error .panicIndexOutOfBounds ∧
    Err.panicIndexOutOfBounds ≠ Err.specStackOverflow :=
  ⟨rfl, by decide, rfl, by decide⟩

/-- C6 (amended): executing return (00EE) with an empty call stack panics
with the stack-pointer underflow of self.sp -= 1, and executing call (2NNN)
with 16 saved return addresses panics indexing self.stack[16]; both abort
the run (and the underflow panic propagates out of the whole cycle), but as
panics, not as typed error values returned to the caller. -/
theorem C6_theorem (eU rnd nnn : Nat) (c : Chip8) :
    (c.sp = 0 → exec rnd c .Op00EE = .error .panicSubOverflow) ∧
    (16 ≤ c.sp → exec rnd c (.Op2NNN nnn) = .error .panicIndexOutOfBounds) ∧
    (c.pc + 1 ≤ 4095 → fetchWord c = 0x00EE → c.sp = 0 →
      tick eU rnd c = .error .panicSubOverflow) := by
  refine ⟨fun h => by simp [exec, h], fun h => ?_, fun hpc hw hsp => ?_⟩
  · have h2 : ¬ c.sp < 16 := by omega
    simp [exec, h2]
  · unfold tick fetch
    rw [if_pos hpc, hw]
    simp only [show instOfOpcode 0x00EE = Except.ok Inst.Op00EE from rfl]
    simp [exec, hsp]

/-- C6, witness: the amended theorem applied at the freshly reset machine
(empty stack), at the full-stack state, and at the state one cycle away from
the empty-stack return. -/
theorem C6_witness :
    exec 0 resetState .Op00EE = .error .panicSubOverflow ∧
    exec 0 c6full (.Op2NNN 0x300) = .error .panicIndexOutOfBounds ∧
    tick 0 0 c6tickState = .error .panicSubOverflow :=
  ⟨(C6_theorem 0 0 0x300 resetState).1 rfl,
   (C6_theorem 0 0 0x300 c6full).2.1 (by decide),
   (C6_theorem 0 0 0x300 c6tickState).2.2 (by decide) rfl rfl⟩

/-- C10: when the destination register index is 0xF, the handlers of
8XY4, 8XY5 and 8XY7 leave register 0xF holding the 8-bit wrapped arithmetic
result, not the carry/borrow flag: each handler writes v[0xF] = flag first
and v[x] = result second, and for x = 0xF the second write overwrites the
first. -/
theorem C10_theorem (rnd : Nat) (c : Chip8) (y : Nat) :
    (∃ c1, exec rnd c (.Op8XY4 0xF y) = .ok (c1, .Next) ∧
      c1.v 0xF = (c.v 0xF + c.v y) % 256) ∧
    (∃ c1, exec rnd c (.Op8XY5 0xF y) = .ok (c1, .Next) ∧
      c1.v 0xF = (c.v 0xF + 256 - c.v y) % 256) ∧
    (∃ c1, exec rnd c (.Op8XY7 0xF y) = .ok (c1, .Next) ∧
      c1.v 0xF = (c.v y + 256 - c.v 0xF) % 256) := by
  refine ⟨⟨_, rfl, ?_⟩, ⟨_, rfl, ?_⟩, ⟨_, rfl, ?_⟩⟩ <;> simp [upd]

/-- One cycle on the key-wait program with no key held returns the state
literally unchanged (the fetch advance is undone by the Halt flow) and emits
no audible event. -/
theorem c5_step : tick 0 0 c5state = .ok (c5state, false) := rfl

/-- Any number of cycles on the key-wait program with no key held leaves the
state unchanged. -/
theorem c5_fix : ∀ n, ticks 0 0 n c5state = .ok c5state := by
  intro n
  induction n with
  | zero => rfl
  | succ m ih => simp only [ticks, c5_step]; exact ih

/-- C5: the blocking key-wait FX0A.  In general: with no key held it
mutates nothing and yields the Halt (Retry) flow; with some key held it
stores the lowest-indexed held key into the destination register and yields
the Advance flow.  In the spec scenario: the program [0xF0, 0x0A] at 0x200
with no key held leaves the machine state (in particular pc = 0x200)
unchanged for any number of cycles, and after setting key 3 the next cycle
sets v0 = 3 and advances pc to 0x202. -/
theorem C5_theorem :
    (∀ rnd (c : Chip8) x,
      (firstPressedKey c.key = none → exec rnd c (.OpFX0A x) = .ok (c, .Halt)) ∧
      (∀ k, firstPressedKey c.key = some k →
        c.key k = true ∧ (∀ j, j < k → c.key j = false) ∧
        exec rnd c (.OpFX0A x) = .ok ({ c with v := upd c.v x k }, .Next))) ∧
    (∀ n, ticks 0 0 n c5state = .ok c5state) ∧
    c5state.pc = 0x200 ∧
    Option.map (fun c1 => (c1.v 0, c1.pc))
      (afterTick 0 0 { c5state with key := updB c5state.key 3 true }) = some (3, 0x202) := by
  refine ⟨?_, c5_fix, rfl, rfl⟩
  intro rnd c x
  constructor
  · intro h
    simp [exec, h]
  · intro k h
    obtain ⟨hk, hmin⟩ := firstPressedKey_spec c.key k h
    exact ⟨hk, hmin, by simp [exec, h]⟩

/-- C5, witness: the general FX0A statement applied at the freshly reset
machine, where no key is held. -/
theorem C5_witness :
    exec 0 resetState (.OpFX0A 0) = .ok (resetState, Flow.Halt) :=
  (C5_theorem.1 0 resetState 0).1 rfl

/-- The exact successor state of the store-registers instruction FX55 when
the written region is in bounds. -/
theorem fx55_spec (rnd : Nat) (c : Chip8) (x : Nat) (hx : c.i + x ≤ 4095) :
    exec rnd c (.OpFX55 x) =
      .ok ({ c with
        mem := fun a => if c.i ≤ a ∧ a ≤ c.i + x then c.v (a - c.i) else c.mem a,
        i := c.i + x + 1 }, .Next) := by
  simp [exec, hx]

/-- The exact successor state of the load-registers instruction FX65 when
the read region is in bounds. -/
theorem fx65_spec (rnd : Nat) (c : Chip8) (x : Nat) (hx : c.i + x ≤ 4095) :
    exec rnd c (.OpFX65 x) =
      .ok ({ c with
        v := fun r => if r ≤ x then c.mem (c.i + r) else c.v r,
        i := c.i + x + 1 }, .Next) := by
  simp [exec, hx]

/-- C7: store-registers FX55 copies registers 0 through x into memory at
I (leaving the rest of memory and all registers untouched) and leaves
I = I + x + 1, just past the written region; load-registers FX65 is the
inverse, copying memory at I into registers 0 through x (leaving higher
registers and all of memory untouched) and advancing I the same way; and
store for x = 5 followed by load for x = 5 over the stored region reproduces
the original register values 0 through 5 exactly. -/
theorem C7_theorem :
    (∀ rnd (c : Chip8) x, c.i + x ≤ 4095 →
      (∃ c1, exec rnd c (.OpFX55 x) = .ok (c1, .Next) ∧
        (∀ a, c.i ≤ a → a ≤ c.i + x → c1.mem a = c.v (a - c.i)) ∧
        (∀ a, ¬(c.i ≤ a ∧ a ≤ c.i + x) → c1.mem a = c.mem a) ∧
        c1.i = c.i + x + 1 ∧ c1.v = c.v) ∧
      (∃ c2, exec rnd c (.OpFX65 x) = .ok (c2, .Next) ∧
        (∀ r, r ≤ x → c2.v r = c.mem (c.i + r)) ∧
        (∀ r, x < r → c2.v r = c.v r) ∧
        c2.i = c.i + x + 1 ∧ c2.mem = c.mem)) ∧
    (∀ rnd (c : Chip8), c.i + 5 ≤ 4095 →
      ∃ c1 c2, exec rnd c (.OpFX55 5) = .ok (c1, .Next) ∧
        exec rnd { c1 with i := c.i } (.OpFX65 5) = .ok (c2, .Next) ∧
        ∀ r, r ≤ 5 → c2.v r = c.v r) := by
  constructor
  · intro rnd c x hx
    constructor
    · refine ⟨_, fx55_spec rnd c x hx, ?_, ?_, rfl, rfl⟩
      · intro a h1 h2
        have h3 : c.i ≤ a ∧ a ≤ c.i + x := ⟨h1, h2⟩
        simp [h3]
      · intro a h
        simp [h]
    · refine ⟨_, fx65_spec rnd c x hx, ?_, ?_, rfl, rfl⟩
      · intro r hr
        simp [hr]
      · intro r hr
        simp [show ¬ r ≤ x by omega]
  · intro rnd c h
    refine ⟨_, _, fx55_spec rnd c 5 h, fx65_spec rnd _ 5 (by simpa using h), ?_⟩
    intro r hr
    have h3 : c.i ≤ c.i + r ∧ c.i + r ≤ c.i + 5 := by omega
    simp [hr, h3]

/-- A state with I = 0x300 and two nonzero low registers, for the C7
witness. -/
def c7wit : Chip8 :=
  { resetState with i := 0x300, v := upd (upd resetState.v 0 11) 5 22 }

/-- C7, witness: the round-trip conjunct applied at a state with I = 0x300,
v[0] = 11 and v[5] = 22. -/
theorem C7_witness :
    c7wit.i + 5 ≤ 4095 ∧
    (∃ c1 c2, exec 0 c7wit (.OpFX55 5) = .ok (c1, .Next) ∧
      exec 0 { c1 with i := c7wit.i } (.OpFX65 5) = .ok (c2, .Next) ∧
      ∀ r, r ≤ 5 → c2.v r = c7wit.v r) :=
  ⟨by decide, C7_theorem.2 0 c7wit (by decide)⟩

/-- C8, counterexample.  The claim quantifies over all byte pairs held in
registers x and y; with x = y = 0 and v[0] = 5, sub 8XY5 zeroes v[0] and the
following add 8XY4 computes 0 + 0, leaving v[0] = 0, not the original 5. -/
theorem C8_counterexample :
    seqV c8state (.Op8XY5 0 0) (.Op8XY4 0 0) 0 = some 0 ∧
    c8state.v 0 = 5 ∧
    seqV c8state (.Op8XY5 0 0) (.Op8XY4 0 0) 0 ≠ some (c8state.v 0) :=
  ⟨rfl, rfl, by decide⟩

/-- C8 (amended): for distinct register indices x and y, neither of them the
flag register 0xF, and any byte values in them, sub 8XY5 followed by add
8XY4 on the same pair restores the original v[x], and the flag register ends
reflecting the most recent operation's (the add's) carry: 1 exactly when the
original v[x] was below v[y].  The restoration fails when x = y (the sub
zeroes both operands) and when either index is 0xF (the flag writes
interfere). -/
theorem C8_theorem (c : Chip8) (x y : Nat) (hxy : x ≠ y) (hx : x ≠ 0xF) (hy : y ≠ 0xF)
    (ha : c.v x < 256) (hb : c.v y < 256) :
    ∃ c2, execSeq c (.Op8XY5 x y) (.Op8XY4 x y) = .ok c2 ∧
      c2.v x = c.v x ∧
      c2.v 0xF = (if c.v x < c.v y then 1 else 0) := by
  have h1 : ¬ (y = x) := fun h => hxy h.symm
  have h4 : ¬ ((15 : Nat) = x) := fun h => hx h.symm
  refine ⟨_, rfl, ?_, ?_⟩
  · simp [upd, h1, hx, hy, h4]
    omega
  · simp [upd, h1, hx, hy, h4]
    split_ifs <;> omega

/-- A state with v[0] = 5 and v[1] = 9, for the C8 witness. -/
def c8wit : Chip8 :=
  { resetState with v := upd (upd resetState.v 0 5) 1 9 }

/-- C8, witness: the amended theorem applied with x = 0, y = 1 at a state
with v[0] = 5, v[1] = 9 (so the add carries and the flag ends at 1). -/
theorem C8_witness :
    ∃ c2, execSeq c8wit (.Op8XY5 0 1) (.Op8XY4 0 1) = .ok c2 ∧
      c2.v 0 = c8wit.v 0 ∧
      c2.v 0xF = (if c8wit.v 0 < c8wit.v 1 then 1 else 0) :=
  C8_theorem c8wit 0 1 (by decide) (by decide) (by decide) (by decide) (by decide)

end ChipVerif
